import Mathlib

/-!
Verification of the SWI transport layer of an ECC608 driver.

The embedding translates, definition by definition, the transport code of
src/src/ecc.rs: the bit codec (encode_uart_to_swi / decode_swi_to_uart),
the receive polling loop (recv_buf), the command retry engine
(send_command_retries) and the two-phase sign adapter (sign).
Bytes are modelled as Nat (each wire byte is below 256), byte buffers as
List Nat, and fallible paths (Rust assert and slice-copy panics) as Option.
-/

namespace Ecc608

/-- One step of u8.rotate_right(1) on a byte below 256: the low bit moves to
bit 7 and the rest shifts down. -/
def rotr8 (b : Nat) : Nat := b / 2 + b % 2 * 128

/-- Translation of the encoder's inner loop body: for a logical byte, one
physical byte per bit, least-significant bit first, 0xFD for a 0 bit and
0xFF for a 1 bit.  The bit test is the source expression
((1 << bit_index) & byte) >> bit_index. -/
def encodeByte (byte : Nat) : List Nat :=
  (List.range 8).map fun bitIndex =>
    if ((1 <<< bitIndex) &&& byte) >>> bitIndex = 0 then 0xFD else 0xFF

/-- encode_uart_to_swi: concatenation of the per-byte bit fields. -/
def encode_uart_to_swi : List Nat → List Nat
  | [] => []
  | b :: rest => encodeByte b ++ encode_uart_to_swi rest

/-- Translation of the decoder's inner loop over one 8-byte slice: starting
from 0, toggle the low bit on 0x7F or 0x7E, then rotate right, for each of
the 8 physical bytes. -/
def decodeByte (chunk : List Nat) : Nat :=
  chunk.foldl (fun acc bit => rotr8 (if bit = 0x7F ∨ bit = 0x7E then acc ^^^ 1 else acc)) 0

/-- The decoder's outer loop: the i-th output byte is decoded from the slice
swi_msg[8*i .. 8*i+8]. -/
def decodeCore (swi : List Nat) : List Nat :=
  (List.range (swi.length / 8)).map fun i => decodeByte ((swi.drop (8 * i)).take 8)

/-- decode_swi_to_uart: the source asserts len % 8 == 0 (a fatal contract
violation otherwise, modelled as none) and fills len / 8 output bytes. -/
def decode_swi_to_uart (swi : List Nat) : Option (List Nat) :=
  if swi.length % 8 = 0 then some (decodeCore swi) else none

/-- Modelled from the spec: the device-error classification lives in the
command layer (command.rs), which is not part of the transport source.
The spec's error taxonomy keeps a dedicated parse-failure class apart from
the recoverable device errors, and the source retry logic has a reachable
branch dedicated to the parse-failure error, so the parse-failure error is
not recoverable; every other device error carries its own
recoverable/fatal classification. -/
inductive EccError where
  | parseError
  | other (recoverable : Bool)
deriving DecidableEq, Repr

def EccError.is_recoverable : EccError → Bool
  | .parseError => false
  | .other r => r

/-- Modelled from the spec: the transport error taxonomy — Timeout, a
chip-reported device error, and failures of the underlying port layer. -/
inductive Error where
  | timeout
  | ecc (e : EccError)
  | port (n : Nat)
deriving DecidableEq, Repr

/-- Modelled from the spec: the command layer classifies a decoded reply as
a data payload or a tagged device error. -/
inductive EccResponse where
  | Data (bytes : List Nat)
  | Error (e : EccError)
deriving DecidableEq, Repr

/-- Modelled from the spec: the outcome of one attempt of the retry engine
as supplied by its collaborators — the wake result from the bus sequencer,
the exchange result from the frame exchanger, and the classification of
the received reply by the command layer. -/
structure AttemptEnv where
  wake : Except Error Unit
  exch : Except Error Unit
  resp : Except Error EccResponse

instance {ε α : Type} [DecidableEq ε] [DecidableEq α] : DecidableEq (Except ε α) := fun a b =>
  match a, b with
  | .ok x, .ok y =>
    if h : x = y then .isTrue (by rw [h]) else .isFalse (fun hh => h (Except.ok.inj hh))
  | .ok _, .error _ => .isFalse (fun hh => Except.noConfusion hh)
  | .error _, .ok _ => .isFalse (fun hh => Except.noConfusion hh)
  | .error x, .error y =>
    if h : x = y then .isTrue (by rw [h]) else .isFalse (fun hh => h (Except.error.inj hh))

/-- The loop body of send_command_retries, translated arm by arm; fuel is
the number of loop iterations left, retry the current loop counter, and
falling out of the loop (fuel 0) yields Err(Error::timeout()). -/
def scrGo (env : Nat → AttemptEnv) (retries : Nat) : Nat → Nat → Except Error (List Nat)
  | 0, _ => .error .timeout
  | fuel + 1, retry =>
    match (env retry).wake with
    | .error e =>
      if retry < retries then scrGo env retries fuel (retry + 1) else .error e
    | .ok _ =>
      match (env retry).exch with
      | .error _ =>
        if retry = retries then .error .timeout else scrGo env retries fuel (retry + 1)
      | .ok _ =>
        match (env retry).resp with
        | .ok (.Data bytes) => .ok bytes
        | .ok (.Error err) =>
          if err.is_recoverable = true ∧ retry < retries then
            scrGo env retries fuel (retry + 1)
          else if err = .parseError ∧ retry < retries then .error .timeout
          else .error (.ecc err)
        | .error e =>
          if retry < retries then scrGo env retries fuel (retry + 1) else .error e

/-- send_command_retries: runs the wake/exchange/classify cycle for
retry in 0..retries; the sleep flag only triggers a fire-and-forget sleep
pulse and does not affect the returned value. -/
def send_command_retries (env : Nat → AttemptEnv) (_sleep : Bool) (retries : Nat) :
    Except Error (List Nat) :=
  scrGo env retries retries 0

def RECV_RETRIES : Nat := 2

def CMD_RETRIES : Nat := 10

/-- send_command: send_command_retries with sleep requested and the default
retry budget. -/
def send_command (env : Nat → AttemptEnv) : Except Error (List Nat) :=
  send_command_retries env true CMD_RETRIES

/-- One poll read overwrites the front of the fixed-size receive buffer
with the bytes it returned, leaving the rest untouched. -/
def readInto (msg bytes : List Nat) : List Nat :=
  (bytes ++ msg.drop bytes.length).take msg.length

/-- The tail of recv_buf after the poll loop: decode the SZ-byte physical
buffer (SZ stands for ATCA_CMD_SIZE_MAX, kept as a parameter because
constants.rs is outside the transport source; the decoder's assert demands
8 divides SZ), read the declared logical length from the second decoded
byte, fail with Timeout when it exceeds SZ / 8, and otherwise return the
declared number of bytes after stripping the decoded transmit-flag echo;
indexing past the decoded buffer or a length mismatch in the final
copy_from_slice is a panic, modelled as none. -/
def recvAfterLoop (SZ : Nat) (msg : List Nat) : Option (Except Error (List Nat)) :=
  match decode_swi_to_uart msg with
  | none => none
  | some decoded =>
    match decoded[1]? with
    | none => none
    | some size =>
      if size > SZ / 8 then some (.error .timeout)
      else if ((decoded.drop 1).take size).length = size then
        some (.ok ((decoded.drop 1).take size))
      else none

/-- The poll loop of recv_buf, translated arm by arm: for
retry in 0..RECV_RETRIES, write the transmit flag and read; a read of
exactly 8 bytes waits and polls again, a read of more than 16 bytes breaks
out to decode, and any other outcome retries while retry differs from
RECV_RETRIES (which always holds inside the loop) and would otherwise
return Timeout; reads gives the bytes delivered by each poll read, none
standing for a failed read, which leaves the buffer untouched. -/
def recvGo (SZ : Nat) (reads : Nat → Option (List Nat)) :
    Nat → Nat → List Nat → Option (Except Error (List Nat))
  | 0, _, msg => recvAfterLoop SZ msg
  | fuel + 1, retry, msg =>
    match reads retry with
    | some bytes =>
      if bytes.length = 8 then recvGo SZ reads fuel (retry + 1) (readInto msg bytes)
      else if bytes.length > 16 then recvAfterLoop SZ (readInto msg bytes)
      else if retry ≠ RECV_RETRIES then recvGo SZ reads fuel (retry + 1) (readInto msg bytes)
      else some (.error .timeout)
    | none =>
      if retry ≠ RECV_RETRIES then recvGo SZ reads fuel (retry + 1) msg
      else some (.error .timeout)

/-- recv_buf: the receive buffer starts as SZ zero bytes and the poll loop
runs with the full receive retry budget. -/
def recv_buf (SZ : Nat) (reads : Nat → Option (List Nat)) :
    Option (Except Error (List Nat)) :=
  recvGo SZ reads RECV_RETRIES 0 (List.replicate SZ 0)

/-- The two-phase sign adapter: for attempts in 0..4, phase (a) loads the
digest through a nonce command via send_command_retries(.., false, 1) and,
on success, phase (b) requests the signature via
send_command_retries(.., true, 1); any error sends a sleep pulse and
restarts both phases while attempts < 3, and is otherwise returned as that
phase's own error; the per-attempt environments of the two inner
retry-engine calls are supplied explicitly. -/
def signGo (envN envS : Nat → Nat → AttemptEnv) : Nat → Nat → Except Error (List Nat)
  | 0, _ => .error .timeout
  | fuel + 1, attempts =>
    match send_command_retries (envN attempts) false 1 with
    | .error e =>
      if attempts < 3 then signGo envN envS fuel (attempts + 1) else .error e
    | .ok _ =>
      match send_command_retries (envS attempts) true 1 with
      | .ok b => .ok b
      | .error e =>
        if attempts < 3 then signGo envN envS fuel (attempts + 1) else .error e

def sign (envN envS : Nat → Nat → AttemptEnv) : Except Error (List Nat) :=
  signGo envN envS 4 0

/-- Attempt stream whose first reply is the parse-failure device error and
whose later replies are data. -/
def envParse : Nat → AttemptEnv := fun i =>
  if i = 0 then ⟨Except.ok (), Except.ok (), Except.ok (EccResponse.Error .parseError)⟩
  else ⟨Except.ok (), Except.ok (), Except.ok (EccResponse.Data [5])⟩

/-- Attempt stream whose first reply is a recoverable device error and
whose later replies are data. -/
def envRecov : Nat → AttemptEnv := fun i =>
  if i = 0 then ⟨Except.ok (), Except.ok (), Except.ok (EccResponse.Error (.other true))⟩
  else ⟨Except.ok (), Except.ok (), Except.ok (EccResponse.Data [5])⟩

/-- The 8 physical bytes of the encoded transmit-flag echo, the typical
payload of an 8-byte poll read. -/
def flagEcho : List Nat := [0xFD, 0xFD, 0xFD, 0xFF, 0xFD, 0xFD, 0xFD, 0xFF]

/-- A poll read longer than 16 bytes. -/
def bigRead : List Nat := List.replicate 24 0x7E

/-- A 32-byte physical buffer whose second decoded byte is 5, exceeding the
32 / 8 = 4 logical-size bound. -/
def oversizedMsg : List Nat :=
  List.replicate 8 0 ++ [0x7E, 0, 0x7F, 0, 0, 0, 0, 0] ++ List.replicate 16 0

/-- Attempt stream for the sign phases whose every inner call succeeds with
empty data. -/
def envAllOk : Nat → Nat → AttemptEnv :=
  fun _ _ => ⟨Except.ok (), Except.ok (), Except.ok (EccResponse.Data [])⟩

/-- Attempt stream whose reply classification always fails, making the
inner retry-engine call time out. -/
def envRespErr : Nat → Nat → AttemptEnv :=
  fun _ _ => ⟨Except.ok (), Except.ok (), Except.error (Error.port 3)⟩

/-- Attempt stream whose reply is always a fatal (non-recoverable,
non-parse) device error. -/
def envFatal : Nat → Nat → AttemptEnv :=
  fun _ _ => ⟨Except.ok (), Except.ok (), Except.ok (EccResponse.Error (.other false))⟩

theorem encodeByte_length (b : Nat) : (encodeByte b).length = 8 := by
  simp [encodeByte]

theorem encode_length (x : List Nat) :
    (encode_uart_to_swi x).length = 8 * x.length := by
  induction x with
  | nil => simp [encode_uart_to_swi]
  | cons b rest ih =>
    simp [encode_uart_to_swi, encodeByte_length, ih]
    omega

theorem encodeByte_mem (b c : Nat) (hc : c ∈ encodeByte b) :
    c = 0xFD ∨ c = 0xFF := by
  simp only [encodeByte, List.mem_map, List.mem_range] at hc
  obtain ⟨i, _, hif⟩ := hc
  split at hif
  · exact Or.inl hif.symm
  · exact Or.inr hif.symm

theorem encode_mem (x : List Nat) (c : Nat) (hc : c ∈ encode_uart_to_swi x) :
    c = 0xFD ∨ c = 0xFF := by
  induction x with
  | nil => simp [encode_uart_to_swi] at hc
  | cons b rest ih =>
    simp only [encode_uart_to_swi, List.mem_append] at hc
    rcases hc with h | h
    · exact encodeByte_mem b c h
    · exact ih h

theorem decodeByte_eq_zero (chunk : List Nat)
    (h : ∀ c ∈ chunk, c ≠ 0x7E ∧ c ≠ 0x7F) : decodeByte chunk = 0 := by
  induction chunk with
  | nil => rfl
  | cons c t ih =>
    have hc := h c (by simp)
    have ht : ∀ a ∈ t, a ≠ 0x7E ∧ a ≠ 0x7F := fun a ha => h a (by simp [ha])
    have hstep : rotr8 (if c = 0x7F ∨ c = 0x7E then 1 else 0) = 0 := by
      rw [if_neg (by tauto)]
      rfl
    simpa [decodeByte, List.foldl_cons, hstep] using ih ht

theorem decodeCore_no_marks (l : List Nat)
    (h : ∀ c ∈ l, c ≠ 0x7E ∧ c ≠ 0x7F) :
    decodeCore l = List.replicate (l.length / 8) 0 := by
  rw [List.eq_replicate_iff]
  refine ⟨by simp [decodeCore], ?_⟩
  intro b hb
  simp only [decodeCore, List.mem_map, List.mem_range] at hb
  obtain ⟨i, _, rfl⟩ := hb
  exact decodeByte_eq_zero _ fun c hc =>
    h c (List.mem_of_mem_drop (List.mem_of_mem_take hc))

theorem decodeCore_length (l : List Nat) :
    (decodeCore l).length = l.length / 8 := by
  simp [decodeCore]

theorem bit_select (y b : Nat) : ((1 <<< b) &&& y) >>> b = y / 2 ^ b % 2 := by
  induction b generalizing y with
  | zero => simp
  | succ b ih =>
    rw [Nat.shiftRight_succ_inside, Nat.and_div_two]
    have h1 : (1 <<< (b + 1)) / 2 = 1 <<< b := by
      rw [Nat.shiftLeft_succ]
      omega
    rw [h1, ih (y / 2), Nat.div_div_eq_div_mul]
    have h2 : 2 * 2 ^ b = 2 ^ (b + 1) := by
      rw [Nat.pow_succ]
      ring
    rw [h2]

theorem encodeByte_getElem (y b : Nat) (hb : b < 8) :
    (encodeByte y)[b]? = some (if y / 2 ^ b % 2 = 1 then 0xFF else 0xFD) := by
  simp only [encodeByte, List.getElem?_map, List.getElem?_range hb, Option.map_some,
    bit_select]
  rcases Nat.mod_two_eq_zero_or_one (y / 2 ^ b) with h | h <;> simp [h]

theorem encode_getElem (x : List Nat) (i b : Nat) (hi : i < x.length) (hb : b < 8) :
    (encode_uart_to_swi x)[8 * i + b]? = (encodeByte x[i])[b]? := by
  induction x generalizing i with
  | nil => simp at hi
  | cons y rest ih =>
    cases i with
    | zero =>
      show (encodeByte y ++ encode_uart_to_swi rest)[8 * 0 + b]? = _
      rw [List.getElem?_append_left (by rw [encodeByte_length]; omega)]
      simp
    | succ j =>
      show (encodeByte y ++ encode_uart_to_swi rest)[8 * (j + 1) + b]? = _
      rw [List.getElem?_append_right (by rw [encodeByte_length]; omega),
        encodeByte_length]
      have harith : 8 * (j + 1) + b - 8 = 8 * j + b := by omega
      rw [harith]
      simpa using ih j (Nat.lt_of_succ_lt_succ hi)

/-- C2 (confirmed): encode_uart_to_swi emits exactly 8 physical bytes per
logical byte, one per bit starting from the least-significant bit, 0xFD
for a 0 bit and 0xFF for a 1 bit; in particular encode [0x01] is 0xFF
followed by seven 0xFD bytes. -/
theorem encode_bitwise (x : List Nat) (hx : ∀ y ∈ x, y < 256) (i b : Nat)
    (hi : i < x.length) (hb : b < 8) :
    (encode_uart_to_swi x).length = 8 * x.length ∧
    (encode_uart_to_swi x)[8 * i + b]? =
      some (if x[i] / 2 ^ b % 2 = 1 then 0xFF else 0xFD) ∧
    encode_uart_to_swi [0x01] = [0xFF, 0xFD, 0xFD, 0xFD, 0xFD, 0xFD, 0xFD, 0xFD] :=
  ⟨encode_length x,
   by rw [encode_getElem x i b hi hb, encodeByte_getElem _ b hb],
   by decide⟩

theorem encode_bitwise_witness :
    (encode_uart_to_swi [0x01]).length = 8 * [0x01].length ∧
    (encode_uart_to_swi [0x01])[8 * 0 + 0]? =
      some (if [0x01][0] / 2 ^ 0 % 2 = 1 then 0xFF else 0xFD) ∧
    encode_uart_to_swi [0x01] = [0xFF, 0xFD, 0xFD, 0xFD, 0xFD, 0xFD, 0xFD, 0xFD] :=
  encode_bitwise [0x01] (by decide) 0 0 (by decide) (by decide)

/-- C1 counterexample: the round trip does not return the original buffer;
decode_swi_to_uart (encode_uart_to_swi [0x01]) is [0x00], not [0x01], and
decoding [0xFF, 0xFD, 0xFD, 0xFD, 0xFD, 0xFD, 0xFD, 0xFD] returns [0x00],
because the decoder toggles bits only on the wire values 0x7E and 0x7F
while the encoder emits 0xFD and 0xFF. -/
theorem roundtrip_fails :
    decode_swi_to_uart (encode_uart_to_swi [0x01]) = some [0x00] ∧
    (some [0x00] : Option (List Nat)) ≠ some [0x01] ∧
    decode_swi_to_uart [0xFF, 0xFD, 0xFD, 0xFD, 0xFD, 0xFD, 0xFD, 0xFD] = some [0x00] :=
  ⟨by decide, by decide, by decide⟩

/-- C1 amended: decoding the encoder's output returns an all-zero buffer of
the original length (so the round trip reproduces the input only when the
input is all zeros); in particular decoding the 8-byte sequence
[0xFF, 0xFD, 0xFD, 0xFD, 0xFD, 0xFD, 0xFD, 0xFD] returns [0x00]. -/
theorem decode_encode_zero (x : List Nat) :
    decode_swi_to_uart (encode_uart_to_swi x) = some (List.replicate x.length 0) ∧
    decode_swi_to_uart [0xFF, 0xFD, 0xFD, 0xFD, 0xFD, 0xFD, 0xFD, 0xFD] = some [0x00] := by
  refine ⟨?_, by decide⟩
  have hlen := encode_length x
  rw [decode_swi_to_uart, if_pos (by omega),
    decodeCore_no_marks _ (fun c hc => by rcases encode_mem x c hc with h | h <;> omega),
    hlen, show 8 * x.length / 8 = x.length from by omega]

/-- C9 (confirmed): decode_swi_to_uart is total exactly on physical buffers
whose length is a multiple of 8 (the source assert is a fatal contract
violation otherwise), and under that precondition it produces exactly
len / 8 logical bytes. -/
theorem decode_total_iff (swi : List Nat) :
    (decode_swi_to_uart swi = none ↔ swi.length % 8 ≠ 0) ∧
    (∀ l, decode_swi_to_uart swi = some l → l.length = swi.length / 8) := by
  unfold decode_swi_to_uart
  constructor
  · split <;> simp_all
  · intro l hl
    split at hl
    · injection hl with h
      rw [← h]
      exact decodeCore_length swi
    · cases hl

theorem decode_total_iff_witness :
    decode_swi_to_uart [1, 2, 3] = none ∧
    List.length [0] = List.length [1, 2, 3, 4, 5, 6, 7, 8] / 8 :=
  ⟨(decode_total_iff [1, 2, 3]).1.mpr (by decide),
   (decode_total_iff [1, 2, 3, 4, 5, 6, 7, 8]).2 [0] (by decide)⟩

/-- C10 (confirmed): a physical buffer of length 8 * n containing no byte
equal to 0x7E or 0x7F decodes to n bytes all equal to 0x00, and the encoder
only ever emits the bytes 0xFD and 0xFF (so decoding any encoder output
yields an all-zero buffer). -/
theorem decode_no_marks (l : List Nat) (n : Nat) (hlen : l.length = 8 * n)
    (hm : ∀ c ∈ l, c ≠ 0x7E ∧ c ≠ 0x7F) (x : List Nat) (c : Nat)
    (hc : c ∈ encode_uart_to_swi x) :
    decode_swi_to_uart l = some (List.replicate n 0) ∧ (c = 0xFD ∨ c = 0xFF) := by
  refine ⟨?_, encode_mem x c hc⟩
  rw [decode_swi_to_uart, if_pos (by omega), decodeCore_no_marks l hm, hlen,
    show 8 * n / 8 = n from by omega]

theorem decode_no_marks_witness :
    decode_swi_to_uart [1, 2, 3, 4, 5, 6, 7, 8] = some (List.replicate 1 0) ∧
    ((0xFF : Nat) = 0xFD ∨ (0xFF : Nat) = 0xFF) :=
  decode_no_marks [1, 2, 3, 4, 5, 6, 7, 8] 1 (by decide) (by decide) [0x01] 0xFF (by decide)

theorem scrGo_wake_all (env : Nat → AttemptEnv) (retries : Nat)
    (h : ∀ i, i < retries → ∃ e, (env i).wake = Except.error e) :
    ∀ fuel retry, retry + fuel = retries →
      scrGo env retries fuel retry = .error .timeout := by
  intro fuel
  induction fuel with
  | zero => intro retry _; rfl
  | succ n ih =>
    intro retry hr
    obtain ⟨e, he⟩ := h retry (by omega)
    simp only [scrGo, he]
    rw [if_pos (show retry < retries by omega)]
    exact ih (retry + 1) (by omega)

/-- C4 amended: a wake failure causes the whole wake/exchange cycle to be
retried on every attempt, including the last (retry < retries always holds
inside the loop, so the branch returning the wake error is unreachable);
when the retry budget is exhausted the engine surfaces Timeout, not the
wake error. -/
theorem wake_retry_timeout :
    (∀ (env : Nat → AttemptEnv) (retries fuel retry : Nat) (e : Error),
        retry < retries → (env retry).wake = Except.error e →
        scrGo env retries (fuel + 1) retry = scrGo env retries fuel (retry + 1)) ∧
    (∀ (env : Nat → AttemptEnv) (s : Bool) (retries : Nat),
        (∀ i, i < retries → ∃ e, (env i).wake = Except.error e) →
        send_command_retries env s retries = .error .timeout) := by
  constructor
  · intro env retries fuel retry e hlt he
    simp only [scrGo, he]
    rw [if_pos hlt]
  · intro env s retries h
    exact scrGo_wake_all env retries h retries 0 (by omega)

theorem wake_retry_timeout_witness :
    scrGo (fun _ => ⟨Except.error (Error.port 7), Except.ok (), Except.ok (EccResponse.Data [])⟩)
        2 2 0 =
      scrGo (fun _ => ⟨Except.error (Error.port 7), Except.ok (), Except.ok (EccResponse.Data [])⟩)
        2 1 1 ∧
    send_command_retries
        (fun _ => ⟨Except.error (Error.port 7), Except.ok (), Except.ok (EccResponse.Data [])⟩)
        true 2 = .error .timeout :=
  ⟨wake_retry_timeout.1 _ 2 1 0 (Error.port 7) (by decide) rfl,
   wake_retry_timeout.2 _ true 2 (fun i _ => ⟨Error.port 7, rfl⟩)⟩

/-- C4 counterexample: with 2 retries and the wake failing every time with
a port error, send_command_retries returns Timeout, not the wake error
itself. -/
theorem wake_error_not_surfaced :
    send_command_retries
        (fun _ => ⟨Except.error (Error.port 7), Except.ok (), Except.ok (EccResponse.Data [])⟩)
        true 2 = .error .timeout ∧
    (Except.error Error.timeout : Except Error (List Nat)) ≠ .error (.port 7) :=
  ⟨rfl, by decide⟩

/-- C6 (confirmed): a reply classified as a non-recoverable, non-parse
device error is returned as that device error immediately on its first
occurrence, regardless of the remaining retry budget. -/
theorem fatal_error_immediate (env : Nat → AttemptEnv) (s : Bool) (retries : Nat)
    (err : EccError) (h0 : 0 < retries) (hw : (env 0).wake = .ok ())
    (he : (env 0).exch = .ok ()) (hr : (env 0).resp = .ok (.Error err))
    (hrec : err.is_recoverable = false) (hpe : err ≠ .parseError) :
    send_command_retries env s retries = .error (.ecc err) := by
  obtain ⟨r, rfl⟩ : ∃ r, retries = r + 1 := ⟨retries - 1, by omega⟩
  simp only [send_command_retries, scrGo, hw, he, hr]
  rw [if_neg (by simp [hrec]), if_neg (by simp [hpe])]

theorem fatal_error_immediate_witness :
    send_command_retries
        (fun _ => ⟨Except.ok (), Except.ok (), Except.ok (EccResponse.Error (.other false))⟩)
        true 10 = .error (.ecc (.other false)) :=
  fatal_error_immediate _ true 10 (.other false) (by decide) rfl rfl rfl rfl (by decide)

/-- C5 amended: a reply classified as the dedicated parse-failure device
error does not behave like a recoverable one: while retries remain it
breaks out of the retry loop after the backoff delay, abandoning the
remaining retry budget, and the engine surfaces Timeout. -/
theorem parse_error_breaks (env : Nat → AttemptEnv) (s : Bool) (retries : Nat)
    (h0 : 0 < retries) (hw : (env 0).wake = .ok ()) (he : (env 0).exch = .ok ())
    (hr : (env 0).resp = .ok (.Error .parseError)) :
    send_command_retries env s retries = .error .timeout := by
  obtain ⟨r, rfl⟩ : ∃ r, retries = r + 1 := ⟨retries - 1, by omega⟩
  simp only [send_command_retries, scrGo, hw, he, hr]
  rw [if_neg (by simp [EccError.is_recoverable]), if_pos (by simp)]

theorem parse_error_breaks_witness :
    send_command_retries
        (fun _ => ⟨Except.ok (), Except.ok (), Except.ok (EccResponse.Error .parseError)⟩)
        true 3 = .error .timeout :=
  parse_error_breaks _ true 3 (by decide) rfl rfl rfl

/-- C5 counterexample: with 3 retries, a parse-failure reply on attempt 0
ends the whole call with Timeout even though attempt 1 would have
succeeded, while the structurally identical recoverable-error reply
retries and returns the attempt-1 data — the two classifications do not
behave the same. -/
theorem parse_error_abandons_budget :
    send_command_retries envParse true 3 = .error .timeout ∧
    send_command_retries envRecov true 3 = .ok [5] :=
  ⟨rfl, rfl⟩

theorem recvGo_read8 (SZ : Nat) (reads : Nat → Option (List Nat)) (fuel retry : Nat)
    (msg bytes : List Nat) (h : reads retry = some bytes) (h8 : bytes.length = 8) :
    recvGo SZ reads (fuel + 1) retry msg =
      recvGo SZ reads fuel (retry + 1) (readInto msg bytes) := by
  simp only [recvGo, h]
  rw [if_pos h8]

theorem recvGo_big (SZ : Nat) (reads : Nat → Option (List Nat)) (fuel retry : Nat)
    (msg bytes : List Nat) (h : reads retry = some bytes) (hbig : 16 < bytes.length) :
    recvGo SZ reads (fuel + 1) retry msg = recvAfterLoop SZ (readInto msg bytes) := by
  simp only [recvGo, h]
  rw [if_neg (by omega), if_pos hbig]

/-- C3 amended: a poll read of exactly 8 bytes consumes one receive retry
and, once the budget of RECV_RETRIES reads of 8 bytes is spent, the
function falls out of the loop and proceeds to decode the received buffer
(it does not return Timeout: the Timeout arm of the loop is guarded by
retry differing from RECV_RETRIES, which always holds inside the loop);
a poll read of more than 16 bytes, on either attempt, stops polling
immediately and proceeds to decode. -/
theorem recv_poll_flow (SZ : Nat) (reads : Nat → Option (List Nat)) (b0 b1 : List Nat)
    (h0 : reads 0 = some b0) :
    (b0.length = 8 → reads 1 = some b1 → b1.length = 8 →
      recv_buf SZ reads =
        recvAfterLoop SZ (readInto (readInto (List.replicate SZ 0) b0) b1)) ∧
    (16 < b0.length →
      recv_buf SZ reads = recvAfterLoop SZ (readInto (List.replicate SZ 0) b0)) ∧
    (b0.length = 8 → reads 1 = some b1 → 16 < b1.length →
      recv_buf SZ reads =
        recvAfterLoop SZ (readInto (readInto (List.replicate SZ 0) b0) b1)) := by
  refine ⟨?_, ?_, ?_⟩
  · intro h08 h1 h18
    calc recv_buf SZ reads
        = recvGo SZ reads (1 + 1) 0 (List.replicate SZ 0) := rfl
      _ = recvGo SZ reads (0 + 1) 1 (readInto (List.replicate SZ 0) b0) :=
          recvGo_read8 SZ reads 1 0 _ b0 h0 h08
      _ = recvGo SZ reads 0 2 (readInto (readInto (List.replicate SZ 0) b0) b1) :=
          recvGo_read8 SZ reads 0 1 _ b1 h1 h18
      _ = recvAfterLoop SZ (readInto (readInto (List.replicate SZ 0) b0) b1) := rfl
  · intro hbig
    calc recv_buf SZ reads
        = recvGo SZ reads (1 + 1) 0 (List.replicate SZ 0) := rfl
      _ = recvAfterLoop SZ (readInto (List.replicate SZ 0) b0) :=
          recvGo_big SZ reads 1 0 _ b0 h0 hbig
  · intro h08 h1 h18
    calc recv_buf SZ reads
        = recvGo SZ reads (1 + 1) 0 (List.replicate SZ 0) := rfl
      _ = recvGo SZ reads (0 + 1) 1 (readInto (List.replicate SZ 0) b0) :=
          recvGo_read8 SZ reads 1 0 _ b0 h0 h08
      _ = recvAfterLoop SZ (readInto (readInto (List.replicate SZ 0) b0) b1) :=
          recvGo_big SZ reads 0 1 _ b1 h1 h18

theorem recv_poll_flow_witness :
    recv_buf 32 (fun _ => some flagEcho) =
      recvAfterLoop 32 (readInto (readInto (List.replicate 32 0) flagEcho) flagEcho) ∧
    recv_buf 32 (fun _ => some bigRead) =
      recvAfterLoop 32 (readInto (List.replicate 32 0) bigRead) :=
  ⟨(recv_poll_flow 32 (fun _ => some flagEcho) flagEcho flagEcho rfl).1 rfl rfl rfl,
   (recv_poll_flow 32 (fun _ => some bigRead) bigRead [] rfl).2.1 (by decide)⟩

/-- C3 counterexample: with every poll read returning exactly the 8 bytes
of the transmit-flag echo for the whole receive retry budget, recv_buf
does not return Timeout: it decodes the buffer, reads a declared length
of 0, and returns an empty reply as success. -/
theorem recv_all8_not_timeout :
    recv_buf 32 (fun _ => some flagEcho) = some (.ok []) ∧
    (some (Except.ok ([] : List Nat)) : Option (Except Error (List Nat))) ≠
      some (.error .timeout) :=
  ⟨rfl, by decide⟩

theorem recvGo_ok_shape (SZ : Nat) (reads : Nat → Option (List Nat)) :
    ∀ (fuel retry : Nat) (msg l : List Nat),
      recvGo SZ reads fuel retry msg = some (.ok l) →
      ∃ msg2, recvAfterLoop SZ msg2 = some (.ok l) := by
  intro fuel
  induction fuel with
  | zero => exact fun retry msg l h => ⟨msg, h⟩
  | succ n ih =>
    intro retry msg l h
    simp only [recvGo] at h
    cases hr : reads retry with
    | some bytes =>
      simp only [hr] at h
      by_cases h8 : bytes.length = 8
      · rw [if_pos h8] at h
        exact ih _ _ _ h
      · rw [if_neg h8] at h
        by_cases hbig : bytes.length > 16
        · rw [if_pos hbig] at h
          exact ⟨_, h⟩
        · rw [if_neg hbig] at h
          by_cases hrr : retry ≠ RECV_RETRIES
          · rw [if_pos hrr] at h
            exact ih _ _ _ h
          · rw [if_neg hrr] at h
            simp at h
    | none =>
      simp only [hr] at h
      by_cases hrr : retry ≠ RECV_RETRIES
      · rw [if_pos hrr] at h
        exact ih _ _ _ h
      · rw [if_neg hrr] at h
        simp at h

theorem recvAfterLoop_ok (SZ : Nat) (msg l : List Nat)
    (h : recvAfterLoop SZ msg = some (.ok l)) :
    ∃ decoded size, decode_swi_to_uart msg = some decoded ∧ decoded[1]? = some size ∧
      size ≤ SZ / 8 ∧ l.length = size := by
  unfold recvAfterLoop at h
  cases hd : decode_swi_to_uart msg with
  | none => simp [hd] at h
  | some decoded =>
    simp only [hd] at h
    cases hs : decoded[1]? with
    | none => simp [hs] at h
    | some size =>
      simp only [hs] at h
      by_cases hgt : size > SZ / 8
      · rw [if_pos hgt] at h
        simp at h
      · rw [if_neg hgt] at h
        by_cases hlen : ((decoded.drop 1).take size).length = size
        · rw [if_pos hlen] at h
          exact ⟨decoded, size, by simp [hd], by simp [hs], by omega,
            by rw [← Except.ok.inj (Option.some.inj h), hlen]⟩
        · rw [if_neg hlen] at h
          simp at h

/-- C7 (confirmed): whenever the declared length byte — the second decoded
byte of the reply — exceeds the maximum logical frame size SZ / 8, recv_buf
returns the Timeout error; and whenever recv_buf returns a buffer as
success, its length equals the declared length, which is within the bound,
so a truncated buffer is never returned as success. -/
theorem frame_length_enforced :
    (∀ (SZ : Nat) (msg decoded : List Nat) (size : Nat),
        decode_swi_to_uart msg = some decoded → decoded[1]? = some size →
        SZ / 8 < size → recvAfterLoop SZ msg = some (.error .timeout)) ∧
    (∀ (SZ : Nat) (reads : Nat → Option (List Nat)) (l : List Nat),
        recv_buf SZ reads = some (.ok l) →
        ∃ msg2 decoded size, decode_swi_to_uart msg2 = some decoded ∧
          decoded[1]? = some size ∧ size ≤ SZ / 8 ∧ l.length = size) := by
  constructor
  · intro SZ msg decoded size hd hs hgt
    unfold recvAfterLoop
    simp only [hd, hs]
    rw [if_pos (by omega)]
  · intro SZ reads l h
    obtain ⟨msg2, h2⟩ := recvGo_ok_shape SZ reads RECV_RETRIES 0 (List.replicate SZ 0) l h
    obtain ⟨decoded, size, hd, hs, hle, hl⟩ := recvAfterLoop_ok SZ msg2 l h2
    exact ⟨msg2, decoded, size, hd, hs, hle, hl⟩

theorem frame_length_enforced_witness :
    recvAfterLoop 32 oversizedMsg = some (.error .timeout) ∧
    (∃ msg2 decoded size, decode_swi_to_uart msg2 = some decoded ∧
      decoded[1]? = some size ∧ size ≤ 32 / 8 ∧ List.length ([] : List Nat) = size) :=
  ⟨frame_length_enforced.1 32 oversizedMsg [0, 5, 0, 0] 5 (by decide) (by decide) (by decide),
   frame_length_enforced.2 32 (fun _ => some flagEcho) [] rfl⟩

theorem signGo_restart (envN envS : Nat → Nat → AttemptEnv) (fuel a : Nat) (b : List Nat)
    (e : Error) (ha : a < 3) (hn : send_command_retries (envN a) false 1 = .ok b)
    (hs : send_command_retries (envS a) true 1 = .error e) :
    signGo envN envS (fuel + 1) a = signGo envN envS fuel (a + 1) := by
  simp only [signGo, hn, hs]
  rw [if_pos ha]

theorem signGo_last (envN envS : Nat → Nat → AttemptEnv) (b : List Nat) (e : Error)
    (hn : send_command_retries (envN 3) false 1 = .ok b)
    (hs : send_command_retries (envS 3) true 1 = .error e) :
    signGo envN envS 1 3 = .error e := by
  simp only [signGo, hn, hs]
  rw [if_neg (by omega)]

/-- C8 amended: when the nonce phase succeeds and the sign phase fails on
an attempt with attempts remaining, the next attempt restarts from the
nonce phase; the sign phase never runs except right after a successful
nonce phase of the same attempt; and when every attempt has the nonce
phase succeed and the sign phase fail, the adapter surfaces the sign
phase's own error from the final attempt — this is Timeout when that inner
call timed out, but a fatal device error is surfaced as itself rather than
as Timeout. -/
theorem sign_two_phase_restart :
    (∀ (envN envS : Nat → Nat → AttemptEnv) (fuel a : Nat) (b : List Nat) (e : Error),
        a < 3 → send_command_retries (envN a) false 1 = .ok b →
        send_command_retries (envS a) true 1 = .error e →
        signGo envN envS (fuel + 1) a = signGo envN envS fuel (a + 1)) ∧
    (∀ (envN envS envS2 : Nat → Nat → AttemptEnv) (fuel a : Nat),
        (∀ i, ∃ e, send_command_retries (envN i) false 1 = .error e) →
        signGo envN envS fuel a = signGo envN envS2 fuel a) ∧
    (∀ (envN envS : Nat → Nat → AttemptEnv) (bN : Nat → List Nat) (eS : Nat → Error),
        (∀ a, a < 4 → send_command_retries (envN a) false 1 = .ok (bN a) ∧
            send_command_retries (envS a) true 1 = .error (eS a)) →
        sign envN envS = .error (eS 3)) := by
  refine ⟨signGo_restart, ?_, ?_⟩
  · intro envN envS envS2 fuel
    induction fuel with
    | zero =>
      intro a _
      rfl
    | succ n ih =>
      intro a h
      obtain ⟨e, he⟩ := h a
      simp only [signGo, he]
      by_cases ha : a < 3
      · rw [if_pos ha, if_pos ha]
        exact ih (a + 1) h
      · rw [if_neg ha, if_neg ha]
  · intro envN envS bN eS h
    have h0 := h 0 (by omega)
    have h1 := h 1 (by omega)
    have h2 := h 2 (by omega)
    have h3 := h 3 (by omega)
    calc sign envN envS
        = signGo envN envS (2 + 1) 1 := signGo_restart envN envS 3 0 _ _ (by omega) h0.1 h0.2
      _ = signGo envN envS (1 + 1) 2 := signGo_restart envN envS 2 1 _ _ (by omega) h1.1 h1.2
      _ = signGo envN envS 1 3 := signGo_restart envN envS 1 2 _ _ (by omega) h2.1 h2.2
      _ = .error (eS 3) := signGo_last envN envS _ _ h3.1 h3.2

theorem sign_two_phase_restart_witness :
    signGo envAllOk envRespErr (0 + 1) 0 = signGo envAllOk envRespErr 0 1 ∧
    signGo envRespErr envAllOk 4 0 = signGo envRespErr envRespErr 4 0 ∧
    sign envAllOk envRespErr = .error Error.timeout :=
  ⟨sign_two_phase_restart.1 envAllOk envRespErr 0 0 [] Error.timeout (by omega) rfl rfl,
   sign_two_phase_restart.2.1 envRespErr envAllOk envRespErr 4 0
     (fun _ => ⟨Error.timeout, rfl⟩),
   sign_two_phase_restart.2.2 envAllOk envRespErr (fun _ => []) (fun _ => Error.timeout)
     (fun _ _ => ⟨rfl, rfl⟩)⟩

/-- C8 counterexample: with the nonce phase always succeeding and the sign
phase always failing with a fatal device error, the adapter exhausts its
4 attempts and surfaces the fatal device error itself, not Timeout. -/
theorem sign_surfaces_fatal_not_timeout :
    sign envAllOk envFatal = .error (.ecc (.other false)) ∧
    (Except.error (Error.ecc (.other false)) : Except Error (List Nat)) ≠
      .error .timeout :=
  ⟨rfl, by decide⟩

end Ecc608
